import Mathlib

/-!
Verification of the claude-code-augment middleware core against its
natural-language specification.

The development shallowly embeds the TypeScript sources:
  - src/augment/detector.ts    (ClaudeCodeDetector)
  - src/augment/augmenter.ts   (RequestAugmenter)
  - src/augment/forwarder.ts   (OpenRouterForwarder, streaming transcoder)
  - src/augment/middleware.ts  (AugmentMiddleware reply decisions)

JavaScript runtime values are modeled by the inductive type Json below,
with an explicit constructor for the JS value undefined.  JS truthiness,
typeof, string coercion and property access are modeled by the js*
helper functions.  Machine-level aspects that the claims do not touch
(floating point number formatting, unicode escapes in JSON, prototype
chains) are outside the embedding and are noted where relevant.
-/

namespace Augment

/-- Model of a JavaScript runtime value, including the distinguished
value undefined (constructor undef).  Numbers are restricted to
integers; none of the verified claims involves fractional numbers. -/
inductive Json where
  | undef
  | null
  | bool (b : Bool)
  | num (n : Int)
  | str (s : String)
  | arr (elems : List Json)
  | obj (fields : List (String × Json))

mutual

/-- Decidable equality on Json values (structural, mirrors the JS strict
equality used by the sources on primitive values). -/
def jdeq : (a b : Json) → Decidable (a = b)
  | .undef, .undef => isTrue rfl
  | .null, .null => isTrue rfl
  | .bool x, .bool y =>
    if h : x = y then isTrue (by rw [h]) else isFalse (by intro c; injection c; contradiction)
  | .num x, .num y =>
    if h : x = y then isTrue (by rw [h]) else isFalse (by intro c; injection c; contradiction)
  | .str x, .str y =>
    if h : x = y then isTrue (by rw [h]) else isFalse (by intro c; injection c; contradiction)
  | .arr xs, .arr ys =>
    match jldeq xs ys with
    | isTrue h => isTrue (by rw [h])
    | isFalse h => isFalse (by intro c; injection c; contradiction)
  | .obj xs, .obj ys =>
    match jfdeq xs ys with
    | isTrue h => isTrue (by rw [h])
    | isFalse h => isFalse (by intro c; injection c; contradiction)
  | .undef, .null => isFalse nofun
  | .undef, .bool _ => isFalse nofun
  | .undef, .num _ => isFalse nofun
  | .undef, .str _ => isFalse nofun
  | .undef, .arr _ => isFalse nofun
  | .undef, .obj _ => isFalse nofun
  | .null, .undef => isFalse nofun
  | .null, .bool _ => isFalse nofun
  | .null, .num _ => isFalse nofun
  | .null, .str _ => isFalse nofun
  | .null, .arr _ => isFalse nofun
  | .null, .obj _ => isFalse nofun
  | .bool _, .undef => isFalse nofun
  | .bool _, .null => isFalse nofun
  | .bool _, .num _ => isFalse nofun
  | .bool _, .str _ => isFalse nofun
  | .bool _, .arr _ => isFalse nofun
  | .bool _, .obj _ => isFalse nofun
  | .num _, .undef => isFalse nofun
  | .num _, .null => isFalse nofun
  | .num _, .bool _ => isFalse nofun
  | .num _, .str _ => isFalse nofun
  | .num _, .arr _ => isFalse nofun
  | .num _, .obj _ => isFalse nofun
  | .str _, .undef => isFalse nofun
  | .str _, .null => isFalse nofun
  | .str _, .bool _ => isFalse nofun
  | .str _, .num _ => isFalse nofun
  | .str _, .arr _ => isFalse nofun
  | .str _, .obj _ => isFalse nofun
  | .arr _, .undef => isFalse nofun
  | .arr _, .null => isFalse nofun
  | .arr _, .bool _ => isFalse nofun
  | .arr _, .num _ => isFalse nofun
  | .arr _, .str _ => isFalse nofun
  | .arr _, .obj _ => isFalse nofun
  | .obj _, .undef => isFalse nofun
  | .obj _, .null => isFalse nofun
  | .obj _, .bool _ => isFalse nofun
  | .obj _, .num _ => isFalse nofun
  | .obj _, .str _ => isFalse nofun
  | .obj _, .arr _ => isFalse nofun

/-- Decidable equality on lists of Json values. -/
def jldeq : (xs ys : List Json) → Decidable (xs = ys)
  | [], [] => isTrue rfl
  | [], _ :: _ => isFalse nofun
  | _ :: _, [] => isFalse nofun
  | x :: xs, y :: ys =>
    match jdeq x y with
    | isFalse h => isFalse (by intro c; injection c; contradiction)
    | isTrue h1 =>
      match jldeq xs ys with
      | isFalse h => isFalse (by intro c; injection c; contradiction)
      | isTrue h2 => isTrue (by rw [h1, h2])

/-- Decidable equality on Json object field lists. -/
def jfdeq : (xs ys : List (String × Json)) → Decidable (xs = ys)
  | [], [] => isTrue rfl
  | [], _ :: _ => isFalse nofun
  | _ :: _, [] => isFalse nofun
  | (k1, v1) :: xs, (k2, v2) :: ys =>
    if hk : k1 = k2 then
      match jdeq v1 v2 with
      | isFalse h => isFalse (by intro c; injection c with c1 c2; injection c1; contradiction)
      | isTrue hv =>
        match jfdeq xs ys with
        | isFalse h => isFalse (by intro c; injection c; contradiction)
        | isTrue ht => isTrue (by rw [hk, hv, ht])
    else isFalse (by intro c; injection c with c1 c2; injection c1; contradiction)

end

instance : DecidableEq Json := jdeq

/-- JS truthiness of a value (ToBoolean): undefined, null, false, 0 and
the empty string are falsy; every object and array is truthy. -/
def jsTruthy : Json → Bool
  | .undef => false
  | .null => false
  | .bool b => b
  | .num n => n ≠ 0
  | .str s => s ≠ ""
  | .arr _ => true
  | .obj _ => true

/-- JS typeof operator on a value.  Note typeof null is "object". -/
def jsTypeof : Json → String
  | .undef => "undefined"
  | .null => "object"
  | .bool _ => "boolean"
  | .num _ => "number"
  | .str _ => "string"
  | .arr _ => "object"
  | .obj _ => "object"

mutual

/-- JS String() coercion of a value, as used by template literals and by
the detector comparison String(fieldValue). -/
def jsToString : Json → String
  | .undef => "undefined"
  | .null => "null"
  | .bool b => if b then "true" else "false"
  | .num n => toString n
  | .str s => s
  | .arr es => jsArrToString es
  | .obj _ => "[object Object]"

/-- JS Array.prototype.toString: elements joined by commas, with null
and undefined elements rendered as the empty string. -/
def jsArrToString : List Json → String
  | [] => ""
  | [e] => if e = .undef ∨ e = .null then "" else jsToString e
  | e :: rest =>
      (if e = .undef ∨ e = .null then "" else jsToString e) ++ "," ++ jsArrToString rest

end

/-- Digit-string to number (used for numeric property keys). -/
def strToNat? (s : String) : Option Nat :=
  if ¬ s.data.isEmpty ∧ s.data.all Char.isDigit then
    some (s.data.foldl (fun acc c => acc * 10 + (c.toNat - 48)) 0)
  else none

/-- JS property access v[k], also covering the optional-chained form
v?.[k] used by the forwarder: access on undefined or null yields
undefined instead of throwing.  Objects look keys up in their own
fields (prototype chains are not modeled); arrays and strings support
canonical numeric indices and length. -/
def jsGet : Json → String → Json
  | .obj fields, k =>
      match fields.lookup k with
      | some v => v
      | none => .undef
  | .arr es, k =>
      if k = "length" then .num es.length
      else match strToNat? k with
        | some i => if toString i = k then (es.get? i).getD .undef else .undef
        | none => .undef
  | .str s, k =>
      if k = "length" then .num s.length
      else match strToNat? k with
        | some i =>
            if toString i = k then
              match s.data.get? i with
              | some c => .str (String.mk [c])
              | none => .undef
            else .undef
        | none => .undef
  | _, _ => Json.undef

/-- JS short-circuit disjunction a || b on values. -/
def jsOr (a b : Json) : Json := if jsTruthy a then a else b

/-- Truthiness of an optional configuration string: present and
non-empty.  Models the JS truthiness tests the sources apply to
optional string fields of the policy. -/
def otruthy : Option String → Bool
  | some s => s ≠ ""
  | none => false

/-! ## Data model: policy configuration and inbound request
(src/augment/types.ts) -/

/-- DetectionSpec of the policy (types.ts AugmentConfig.detection). -/
structure Detection where
  header_field : Option String
  header_value : Option String
  metadata_field : Option String
  metadata_value : Option String

/-- AugmentConfig (types.ts).  The two loosely validated fields
additional_instructions and extra_context are carried as raw Json so
that the runtime validation of their shape can be stated. -/
structure AugmentConfig where
  enabled : Bool
  modified_system_prompt : Option String
  additional_instructions : Option Json
  extra_context : Option Json
  openrouter_endpoint : String
  openrouter_auth : String
  detection : Detection

/-- One inbound message (types.ts MessageParam): role together with its
content, the latter being a bare string or a block array at runtime. -/
structure MessageParam where
  role : String
  content : Json

/-- Inbound request body (types.ts AugmentRequest.body).  The extra
field carries the additional sampling parameters the augmenter copies
through by name. -/
structure RequestBody where
  model : String
  messages : List MessageParam
  system : Option Json
  tools : Option (List Json)
  stream : Option Json
  max_tokens : Option Json
  metadata : Option Json
  extra : List (String × Json)

/-- Inbound request: body plus headers, the latter as the entry list of
the JS headers object in iteration order. -/
structure AugmentRequest where
  body : RequestBody
  headers : List (String × String)

/-! ## DetectionRule (src/augment/detector.ts) -/

/-- ASCII lowercase of one character.  Models the JS toLowerCase calls
of the detector; header field names are ASCII, so the ASCII mapping is
the relevant fragment. -/
def lowerChar (c : Char) : Char :=
  if 'A' ≤ c ∧ c ≤ 'Z' then Char.ofNat (c.toNat + 32) else c

/-- ASCII lowercase of a string (JS String.prototype.toLowerCase). -/
def lowerStr (s : String) : String := String.mk (s.data.map lowerChar)

/-- JS String.prototype.split(sep) for a one-character separator: the
list of separator-free parts, always nonempty, with empty parts for
adjacent separators and at the ends. -/
def splitCh (sep : Char) : List Char → List (List Char)
  | [] => [[]]
  | c :: rest =>
      if c = sep then [] :: splitCh sep rest
      else match splitCh sep rest with
        | [] => [[c]]
        | h :: t => (c :: h) :: t

/-- Loop body of ClaudeCodeDetector.checkHeader: scan the header entries
in order and decide on the first key equal (case-insensitively) to the
configured name. -/
def scanHeaders (headerName : String) (hv : Option String) : List (String × String) → Bool
  | [] => false
  | (k, v) :: rest =>
      if lowerStr k = headerName then
        (if otruthy hv then v = hv.getD "" else true)
      else scanHeaders headerName hv rest

/-- ClaudeCodeDetector.checkHeader (detector.ts lines 28 to 49). -/
def checkHeader (det : Detection) (headers : List (String × String)) : Bool :=
  if otruthy det.header_field then
    scanHeaders (lowerStr (det.header_field.getD "")) det.header_value headers
  else false

/-- One iteration of the key loop in ClaudeCodeDetector.getNestedValue:
null or undefined or a non-object intermediate resolves to undefined,
otherwise descend through the property. -/
def nestedStep (current : Json) (key : String) : Json :=
  if current = .null ∨ current = .undef then .undef
  else if jsTypeof current ≠ "object" then .undef
  else jsGet current key

/-- Descent along an explicit key list. -/
def getNestedKeys (o : Json) (keys : List String) : Json :=
  keys.foldl nestedStep o

/-- ClaudeCodeDetector.getNestedValue (detector.ts lines 77 to 92):
split the dotted path and descend key by key. -/
def getNestedValue (o : Json) (path : String) : Json :=
  getNestedKeys o ((splitCh '.' path.data).map String.mk)

/-- ClaudeCodeDetector.checkMetadata (detector.ts lines 51 to 75). -/
def checkMetadata (det : Detection) (metadata : Option Json) : Bool :=
  if ¬ otruthy det.metadata_field then false
  else match metadata with
    | none => false
    | some m =>
      if ¬ jsTruthy m then false
      else if jsTypeof m ≠ "object" then false
      else
        let fieldValue := getNestedValue m (det.metadata_field.getD "")
        if fieldValue = .undef then false
        else if otruthy det.metadata_value then
          jsToString fieldValue = det.metadata_value.getD ""
        else true

/-- ClaudeCodeDetector.isClaudeCodeRequest (detector.ts lines 10 to 26). -/
def isClaudeCodeRequest (cfg : AugmentConfig) (req : AugmentRequest) : Bool :=
  if ¬ cfg.enabled then false
  else if checkHeader cfg.detection req.headers then true
  else if checkMetadata cfg.detection req.body.metadata then true
  else false

/-! ## JSON serialization (model of JSON.stringify(v, null, 2))

Used by the augmenter for the extra-context system message.  The model
covers the value shapes reachable from the policy configuration:
integers, strings without control characters needing unicode escapes,
booleans, null, arrays and objects.  Object fields whose value is
undefined are skipped, undefined array elements render as null, exactly
as JSON.stringify does. -/

/-- String escaping of JSON.stringify for one character. -/
def jsonEscapeChar (c : Char) : String :=
  if c = '"' then "\\\""
  else if c = '\\' then "\\\\"
  else if c = '\n' then "\\n"
  else if c = '\t' then "\\t"
  else if c = '\r' then "\\r"
  else String.mk [c]

/-- Quoted JSON string literal. -/
def jsonQuote (s : String) : String :=
  "\"" ++ String.join (s.data.map jsonEscapeChar) ++ "\""

/-- Spaces used for one indentation level. -/
def jsonPad (n : Nat) : String := String.mk (List.replicate n ' ')

mutual

/-- JSON.stringify(v, null, 2) rendered at indentation level ind; none
models the undefined result JSON.stringify yields on undefined. -/
def stringifyVal (ind : Nat) : Json → Option String
  | .undef => none
  | .null => some "null"
  | .bool b => some (if b then "true" else "false")
  | .num n => some (toString n)
  | .str s => some (jsonQuote s)
  | .arr es =>
      match stringifyElems (ind + 2) es with
      | [] => some "[]"
      | items =>
          some ("[\n" ++ String.intercalate ",\n" (items.map (jsonPad (ind + 2) ++ ·))
            ++ "\n" ++ jsonPad ind ++ "]")
  | .obj fs =>
      match stringifyFields (ind + 2) fs with
      | [] => some "\x7b\x7d"
      | items =>
          some ("\x7b\n" ++ String.intercalate ",\n" (items.map (jsonPad (ind + 2) ++ ·))
            ++ "\n" ++ jsonPad ind ++ "\x7d")

/-- Rendered array elements; undefined elements become null. -/
def stringifyElems (ind : Nat) : List Json → List String
  | [] => []
  | e :: rest => ((stringifyVal ind e).getD "null") :: stringifyElems ind rest

/-- Rendered object members; members with undefined value are skipped. -/
def stringifyFields (ind : Nat) : List (String × Json) → List String
  | [] => []
  | (k, v) :: rest =>
      match stringifyVal ind v with
      | none => stringifyFields ind rest
      | some s => (jsonQuote k ++ ": " ++ s) :: stringifyFields ind rest

end

/-- Top-level JSON.stringify(v, null, 2) as interpolated by a template
literal (undefined interpolates as the text undefined). -/
def stringify (v : Json) : String := (stringifyVal 0 v).getD "undefined"

/-! ## Augmenter (src/augment/augmenter.ts) -/

/-- AugmentResult (types.ts). -/
structure AugmentResult where
  success : Bool
  augmented : Bool
  error : Option String
  errorCode : Option Nat
deriving DecidableEq

/-- Outbound OpenRouter message (types.ts OpenRouterMessage); content is
carried as a raw runtime value, matching the untyped pushes of the
augmenter. -/
structure ORMessage where
  role : String
  content : Json
deriving DecidableEq

/-- Outbound OpenRouter request (types.ts OpenRouterRequest).  Every
field is optional because the augmenter returns a fieldless object on
validation failure; extra carries the sampling parameters copied
through by name. -/
structure OpenRouterRequest where
  model : Option String
  messages : Option (List ORMessage)
  max_tokens : Option Json
  stream : Option Json
  tools : Option (List Json)
  extra : List (String × Json)
deriving DecidableEq

/-- The empty object cast to OpenRouterRequest that augmentRequest
returns together with a failed validation result. -/
def emptyORRequest : OpenRouterRequest :=
  { model := none, messages := none, max_tokens := none, stream := none
    tools := none, extra := [] }

/-- Json.isArr: Array.isArray on the modeled value. -/
def Json.isArr : Json → Bool
  | .arr _ => true
  | _ => false

/-- Test of the validateConfig guard on additional_instructions: truthy
and not an array (a falsy value skips the check, per the JS guard). -/
def badInstructions : Option Json → Bool
  | some j => jsTruthy j && ! j.isArr
  | none => false

/-- Test of the validateConfig guard on extra_context: truthy and not
typeof object (a falsy value skips the check, per the JS guard). -/
def badContext : Option Json → Bool
  | some j => jsTruthy j && jsTypeof j ≠ "object"
  | none => false

/-- RequestAugmenter.validateConfig (augmenter.ts lines 18 to 62).  The
checks run in source order and the first failure wins; the truthiness
guards mirror the JS tests, so falsy values of the two optional fields
skip their shape check. -/
def validateConfig (cfg : AugmentConfig) : AugmentResult :=
  if cfg.openrouter_endpoint = "" then
    { success := false, augmented := false
      error := some "Missing required parameter: openrouter_endpoint", errorCode := some 400 }
  else if cfg.openrouter_auth = "" then
    { success := false, augmented := false
      error := some "Missing required parameter: openrouter_auth", errorCode := some 400 }
  else if badInstructions cfg.additional_instructions then
    { success := false, augmented := false
      error := some "Invalid parameter: additional_instructions must be an array", errorCode := some 400 }
  else if badContext cfg.extra_context then
    { success := false, augmented := false
      error := some "Invalid parameter: extra_context must be an object", errorCode := some 400 }
  else { success := true, augmented := false, error := none, errorCode := none }

/-- RequestAugmenter.buildSystemPrompt (augmenter.ts lines 140 to 160):
collect the replacement prompt, or otherwise the text of every inbound
system segment with truthy text, and join the parts with a blank
line. -/
def buildSystemPrompt (cfg : AugmentConfig) (originalSystem : Option Json) : String :=
  let parts : List Json :=
    (if otruthy cfg.modified_system_prompt then
        [Json.str (cfg.modified_system_prompt.getD "")]
      else [])
    ++ (match originalSystem with
        | some (.arr items) =>
            items.filterMap (fun item =>
              if jsGet item "type" = .str "text" ∧ jsTruthy (jsGet item "text")
                  ∧ ¬ otruthy cfg.modified_system_prompt then
                some (jsGet item "text")
              else none)
        | _ => [])
  joinParts (parts.map jsToString)
where
  /-- Array.prototype.join("\n\n") on the collected parts. -/
  joinParts : List String → String
    | [] => ""
    | [p] => p
    | p :: rest => p ++ "\n\n" ++ joinParts rest

/-- Block loop of RequestAugmenter.convertContent (augmenter.ts lines
194 to 232): text, image (base64 and url sources), tool_use and
tool_result blocks are converted, image blocks with any other source
are dropped, unrecognized block types pass through unchanged. -/
def convertBlocks : List Json → List Json
  | [] => []
  | block :: rest =>
      if jsGet block "type" = .str "text" then
        Json.obj [("type", .str "text"), ("text", jsGet block "text")] :: convertBlocks rest
      else if jsGet block "type" = .str "image" then
        if jsGet (jsGet block "source") "type" = .str "base64" then
          Json.obj [("type", .str "image_url"),
            ("image_url", .obj [("url", .str ("data:"
              ++ jsToString (jsGet (jsGet block "source") "media_type")
              ++ ";base64,"
              ++ jsToString (jsGet (jsGet block "source") "data")))])] :: convertBlocks rest
        else if jsGet (jsGet block "source") "type" = .str "url" then
          Json.obj [("type", .str "image_url"),
            ("image_url", .obj [("url", jsGet (jsGet block "source") "url")])] :: convertBlocks rest
        else convertBlocks rest
      else if jsGet block "type" = .str "tool_use" then
        Json.obj [("type", .str "tool_use"), ("id", jsGet block "id"),
          ("name", jsGet block "name"), ("input", jsGet block "input")] :: convertBlocks rest
      else if jsGet block "type" = .str "tool_result" then
        Json.obj [("type", .str "tool_result"),
          ("tool_use_id", jsGet block "tool_use_id"),
          ("content", jsGet block "content")] :: convertBlocks rest
      else block :: convertBlocks rest

/-- RequestAugmenter.convertContent (augmenter.ts lines 181 to 237):
strings pass through, non-arrays are String-coerced, block arrays are
converted and a single resulting text block collapses to its text. -/
def convertContent (content : Json) : Json :=
  match content with
  | .str s => .str s
  | .arr blocks =>
      match convertBlocks blocks with
      | [c] => if jsGet c "type" = .str "text" then jsGet c "text" else .arr [c]
      | conv => .arr conv
  | other => .str (jsToString other)

/-- RequestAugmenter.convertMessages (augmenter.ts lines 162 to 179):
skip system messages, convert the content of the rest in order. -/
def convertMessages : List MessageParam → List ORMessage
  | [] => []
  | msg :: rest =>
      if msg.role = "system" then convertMessages rest
      else { role := msg.role, content := convertContent msg.content } :: convertMessages rest

/-- RequestAugmenter.convertTools (augmenter.ts lines 239 to 254). -/
def convertTools (tools : List Json) : List Json :=
  tools.map (fun tool =>
    if jsGet tool "type" = .str "function" then tool
    else Json.obj [("type", .str "function"),
      ("function", .obj [("name", jsGet tool "name"),
        ("description", jsGet tool "description"),
        ("parameters", jsGet tool "input_schema")])])

/-- Names of the sampling parameters copied through verbatim when
present (augmenter.ts lines 120 to 127). -/
def additionalFields : List String :=
  ["temperature", "top_p", "top_k", "frequency_penalty", "presence_penalty", "stop"]

/-- Instruction loop of augmentRequest (augmenter.ts lines 87 to 97):
one system message per additional instruction when the field holds a
non-empty array.  The match is only taken on an array value: validation
has already rejected every truthy non-array, and falsy values fail the
length test in the source. -/
def instrMessagesOf : Option Json → List ORMessage
  | some (.arr instrs) =>
      if instrs.length > 0 then
        instrs.map (fun instruction => { role := "system", content := instruction })
      else []
  | _ => []

/-- Context block of augmentRequest (augmenter.ts lines 99 to 104): a
truthy extra_context becomes one final system message wrapping its
pretty-printed JSON between the literal context markers. -/
def contextMessagesOf : Option Json → List ORMessage
  | some ctx =>
      if jsTruthy ctx then
        [{ role := "system",
           content := .str ("<context>\n" ++ stringify ctx ++ "\n</context>") }]
      else []
  | none => []

/-- RequestAugmenter.augmentRequest (augmenter.ts lines 64 to 138).
After validation, the outbound message list is assembled as: the
(at most one) system message from buildSystemPrompt, one system message
per additional instruction, the extra-context system message, then the
converted non-system inbound messages. -/
def augmentRequest (cfg : AugmentConfig) (req : AugmentRequest) :
    OpenRouterRequest × AugmentResult :=
  let validation := validateConfig cfg
  if ¬ validation.success then (emptyORRequest, validation)
  else
    let systemPrompt := buildSystemPrompt cfg req.body.system
    let m1 : List ORMessage :=
      if systemPrompt ≠ "" then [{ role := "system", content := .str systemPrompt }] else []
    let augmentedMessages := m1 ++ instrMessagesOf cfg.additional_instructions
      ++ contextMessagesOf cfg.extra_context ++ convertMessages req.body.messages
    let tools : Option (List Json) :=
      match req.body.tools with
      | some ts => if ts.length > 0 then some (convertTools ts) else none
      | none => none
    ({ model := some req.body.model
       messages := some augmentedMessages
       max_tokens := req.body.max_tokens
       stream := req.body.stream
       tools := tools
       extra := additionalFields.filterMap (fun f =>
         (req.body.extra.lookup f).map (fun v => (f, v))) },
     { success := true, augmented := true, error := none, errorCode := none })

/-! ## Forwarder (src/augment/forwarder.ts) -/

/-- ForwardResult (forwarder.ts) without the transport response handle;
the claims only concern the failure fields. -/
structure ForwardResult where
  success : Bool
  error : Option String
  errorCode : Option Nat
deriving DecidableEq

/-- A JS exception as observed by the catch clause of
OpenRouterForwarder.forward: name, message and optional code. -/
structure JsError where
  name : String
  message : String
  code : Option String
deriving DecidableEq

/-- Catch clause of OpenRouterForwarder.forward (forwarder.ts lines 409
to 430): the listed transport error codes and TypeError map to a 502
network-error result, every other exception maps to a 500 forward-error
result. -/
def forwardCatch (e : JsError) : ForwardResult :=
  if e.code = some "ECONNREFUSED" ∨ e.code = some "ENOTFOUND"
      ∨ e.code = some "ETIMEDOUT" ∨ e.name = "TypeError" then
    { success := false
      error := some ("Network error: Unable to reach OpenRouter endpoint - " ++ e.message)
      errorCode := some 502 }
  else
    { success := false
      error := some ("Forward error: " ++ e.message)
      errorCode := some 500 }

/-- OpenRouterForwarder.mapFinishReason (forwarder.ts lines 578 to 587):
fixed-table lookup with fallback end_turn; none models the absent
(undefined) argument of the non-streaming conversion. -/
def mapFinishReason (reason : Option String) : String :=
  match reason with
  | some r =>
      if r = "stop" then "end_turn"
      else if r = "length" then "max_tokens"
      else if r = "tool_calls" then "tool_use"
      else if r = "content_filter" then "stop_sequence"
      else if r = "function_call" then "tool_use"
      else "end_turn"
  | none => "end_turn"

/-! ## JSON.parse model used by the streaming transcoder

A fuel-based recursive-descent parser producing a Json value, modeling
JSON.parse on the frame shapes the provider emits.  Scope of the model:
integer numbers (no fractions or exponents), the escape sequences
listed in jsonUnescape (no unicode escapes).  A text outside this scope
fails to parse, which the transcoder treats like any malformed frame
(the line is skipped). -/

/-- Whitespace characters skipped between JSON tokens. -/
def isWsChar (c : Char) : Bool :=
  c == ' ' || c == '\t' || c == '\n' || c == '\r'

/-- Skip leading JSON whitespace. -/
def skipWs (s : List Char) : List Char := s.dropWhile isWsChar

/-- Resolution of a backslash escape inside a JSON string literal. -/
def jsonUnescape (c : Char) : Option Char :=
  if c = '"' then some '"'
  else if c = '\\' then some '\\'
  else if c = '/' then some '/'
  else if c = 'n' then some '\n'
  else if c = 't' then some '\t'
  else if c = 'r' then some '\r'
  else none

/-- Characters of a JSON string literal after the opening quote, up to
and consuming the closing quote. -/
def parseStrChars : List Char → Option (List Char × List Char)
  | [] => none
  | '"' :: rest => some ([], rest)
  | '\\' :: c :: rest =>
      match jsonUnescape c with
      | none => none
      | some ch => (parseStrChars rest).map (fun p => (ch :: p.1, p.2))
  | ['\\'] => none
  | c :: rest => (parseStrChars rest).map (fun p => (c :: p.1, p.2))

/-- A nonempty digit run as a natural number plus the rest. -/
def parseDigits (s : List Char) : Option (Nat × List Char) :=
  let ds := s.takeWhile Char.isDigit
  if ds.isEmpty then none
  else some (ds.foldl (fun acc c => acc * 10 + (c.toNat - 48)) 0, s.dropWhile Char.isDigit)

mutual

/-- One JSON value at the head of the input (fuel bounds the nesting
depth; parseJson supplies enough fuel for any input). -/
def parseVal : Nat → List Char → Option (Json × List Char)
  | 0, _ => none
  | _ + 1, [] => none
  | fuel + 1, c :: rest =>
      if c = '{' then
        match skipWs rest with
        | '}' :: r2 => some (.obj [], r2)
        | r => parseMembers fuel r []
      else if c = '[' then
        match skipWs rest with
        | ']' :: r2 => some (.arr [], r2)
        | r => parseElems fuel r []
      else if c = '"' then
        (parseStrChars rest).map (fun p => (.str (String.mk p.1), p.2))
      else if c = 't' then
        if "rue".data.isPrefixOf rest then some (.bool true, rest.drop 3) else none
      else if c = 'f' then
        if "alse".data.isPrefixOf rest then some (.bool false, rest.drop 4) else none
      else if c = 'n' then
        if "ull".data.isPrefixOf rest then some (.null, rest.drop 3) else none
      else if c = '-' then
        (parseDigits rest).map (fun p => (.num (-(p.1 : Int)), p.2))
      else if c.isDigit then
        (parseDigits (c :: rest)).map (fun p => (.num (p.1 : Int), p.2))
      else none

/-- Members of a JSON object after the opening brace (nonempty case). -/
def parseMembers : Nat → List Char → List (String × Json) → Option (Json × List Char)
  | 0, _, _ => none
  | fuel + 1, s, acc =>
      match s with
      | '"' :: rest =>
        match parseStrChars rest with
        | none => none
        | some (k, r1) =>
          match skipWs r1 with
          | ':' :: r2 =>
            match parseVal fuel (skipWs r2) with
            | none => none
            | some (v, r3) =>
              match skipWs r3 with
              | ',' :: r4 => parseMembers fuel (skipWs r4) (acc ++ [(String.mk k, v)])
              | '}' :: r4 => some (.obj (acc ++ [(String.mk k, v)]), r4)
              | _ => none
          | _ => none
      | _ => none

/-- Elements of a JSON array after the opening bracket (nonempty case). -/
def parseElems : Nat → List Char → List Json → Option (Json × List Char)
  | 0, _, _ => none
  | fuel + 1, s, acc =>
      match parseVal fuel s with
      | none => none
      | some (v, r1) =>
        match skipWs r1 with
        | ',' :: r2 => parseElems fuel (skipWs r2) (acc ++ [v])
        | ']' :: r2 => some (.arr (acc ++ [v]), r2)
        | _ => none

end

/-- JSON.parse: parse one value and require only whitespace after it. -/
def parseJson (s : List Char) : Option Json :=
  match parseVal (2 * s.length + 2) (skipWs s) with
  | some (v, rest) => if skipWs rest = [] then some v else none
  | none => none

/-! ## Streaming transcoder
(OpenRouterForwarder.transformOpenRouterToAnthropic, forwarder.ts lines
448 to 552) -/

/-- Caller-facing server-sent event, carrying the payload fields the
claims are about.  The time-derived opaque message id and the constant
zeroed usage of message_start are not modeled. -/
inductive SseEvent where
  | message_start (model : Json)
  | content_block_start
  | content_block_delta (text : Json)
  | content_block_stop
  | message_delta (stop_reason : String) (output_tokens : Json)
  | message_stop
deriving DecidableEq

/-- Per-stream transcoder state apart from the line buffer: the running
token counters (raw values, as the JS closure variables hold whatever
the frame carried) and the one-shot start flag. -/
structure TCore where
  inputTokens : Json
  outputTokens : Json
  sentStart : Bool
deriving DecidableEq

/-- chunk.choices?.[0]?.delta?.content of a parsed frame. -/
def deltaContent (chunk : Json) : Json :=
  jsGet (jsGet (jsGet (jsGet chunk "choices") "0") "delta") "content"

/-- chunk.choices?.[0]?.finish_reason of a parsed frame. -/
def finishReason (chunk : Json) : Json :=
  jsGet (jsGet (jsGet chunk "choices") "0") "finish_reason"

/-- One-shot start events (forwarder.ts lines 487 to 507): on the first
parsed frame emit message_start and content_block_start and flip the
flag. -/
def startEvents (st : TCore) (chunk : Json) : TCore × List SseEvent :=
  if ¬ st.sentStart then
    ({ st with sentStart := true },
     [SseEvent.message_start (jsOr (jsGet chunk "model") (.str "unknown")),
      SseEvent.content_block_start])
  else (st, [])

/-- Counter update from one frame: a truthy usage field overwrites each
counter with the JS || fallback keeping the previous value on a falsy
(zero or absent) count; a frame without usage leaves both unchanged. -/
def usageUpdate (st : TCore) (chunk : Json) : TCore :=
  if jsTruthy (jsGet chunk "usage") then
    { st with
      inputTokens := jsOr (jsGet (jsGet chunk "usage") "prompt_tokens") st.inputTokens,
      outputTokens := jsOr (jsGet (jsGet chunk "usage") "completion_tokens") st.outputTokens }
  else st

/-- Handling of one successfully parsed frame (forwarder.ts lines 485
to 539): emit the two start events once, then a delta event for truthy
incremental content, update the counters from a truthy usage field, and
emit the three closing events when the frame carries a truthy finish
reason; the message_delta carries the updated output-token counter. -/
def processFrame (st : TCore) (chunk : Json) : TCore × List SseEvent :=
  ((usageUpdate (startEvents st chunk).1 chunk),
   (startEvents st chunk).2
   ++ (if jsTruthy (deltaContent chunk) then
        [SseEvent.content_block_delta (deltaContent chunk)] else [])
   ++ (if jsTruthy (finishReason chunk) then
        [SseEvent.content_block_stop,
         SseEvent.message_delta (mapFinishReason (some (jsToString (finishReason chunk))))
           (usageUpdate (startEvents st chunk).1 chunk).outputTokens,
         SseEvent.message_stop]
      else []))

/-- JS String.prototype.trim on a character list. -/
def jsTrim (l : List Char) : List Char :=
  ((l.dropWhile isWsChar).reverse.dropWhile isWsChar).reverse

/-- Handling of one complete line (forwarder.ts lines 479 to 543):
ignore lines without the data prefix, ignore the DONE sentinel, skip
malformed frames, process parsed frames. -/
def processLine (st : TCore) (line : List Char) : TCore × List SseEvent :=
  if ¬ "data: ".data.isPrefixOf line then (st, [])
  else
    let jsonStr := jsTrim (line.drop 6)
    if jsonStr = "[DONE]".data then (st, [])
    else match parseJson jsonStr with
      | none => (st, [])
      | some chunk => processFrame st chunk

/-- Sequential processing of the complete lines of one chunk. -/
def processLines (st : TCore) : List (List Char) → TCore × List SseEvent
  | [] => (st, [])
  | l :: rest =>
      let p1 := processLine st l
      let p2 := processLines p1.1 rest
      (p2.1, p1.2 ++ p2.2)

/-- Transcoder state: carry-over buffer for the last partial line plus
the core state. -/
structure TState where
  buffer : List Char
  core : TCore
deriving DecidableEq

/-- Handling of one input chunk (forwarder.ts lines 475 to 543): append
to the buffer, split on newline, retain the last (possibly partial)
fragment as the new buffer and process the complete lines. -/
def processChunk (st : TState) (chunk : String) : TState × List SseEvent :=
  ({ buffer := (splitCh '\n' (st.buffer ++ chunk.data)).getLastD []
     core := (processLines st.core (splitCh '\n' (st.buffer ++ chunk.data)).dropLast).1 },
   (processLines st.core (splitCh '\n' (st.buffer ++ chunk.data)).dropLast).2)

/-- Initial transcoder state (forwarder.ts lines 455 to 459). -/
def initTState : TState :=
  { buffer := [], core := { inputTokens := .num 0, outputTokens := .num 0, sentStart := false } }

/-- Sequential processing of all chunks of the provider stream. -/
def runChunks (st : TState) : List String → TState × List SseEvent
  | [] => (st, [])
  | c :: rest =>
      let p1 := processChunk st c
      let p2 := runChunks p1.1 rest
      (p2.1, p1.2 ++ p2.2)

/-- OpenRouterForwarder.transformOpenRouterToAnthropic as a function
from the list of received provider chunks to the emitted caller-facing
events: on stream end the remaining buffer is discarded unprocessed and
the output closes (forwarder.ts line 548). -/
def transformOpenRouterToAnthropic (chunks : List String) : List SseEvent :=
  (runChunks initTState chunks).2

/-! ## Middleware reply decisions (src/augment/middleware.ts) -/

/-- Outcome of AugmentMiddleware.handle up to the point where the
provider would be called: pass the request through, reply with an error
envelope, or forward the augmented body (the network call). -/
inductive HandleStep where
  | notHandled
  | rejected (status : Nat) (errType : String) (msg : Option String)
  | forward (body : OpenRouterRequest) (streaming : Bool)
deriving DecidableEq

/-- AugmentMiddleware.handle (middleware.ts lines 27 to 64) as a pure
decision: disabled or undetected requests pass through, a failed
augmentation is rejected with an invalid_request_error envelope and no
forwarding, otherwise the augmented body is forwarded. -/
def handleStep (cfg : AugmentConfig) (req : AugmentRequest) : HandleStep :=
  if ¬ cfg.enabled then .notHandled
  else if ¬ isClaudeCodeRequest cfg req then .notHandled
  else
    let (augmentedBody, result) := augmentRequest cfg req
    if ¬ result.success then
      .rejected (result.errorCode.getD 400) "invalid_request_error" result.error
    else
      .forward augmentedBody (req.body.stream ≠ some (.bool false))

/-- Error reply of AugmentMiddleware.handle on a failed forward
(middleware.ts lines 66 to 75): status errorCode (default 500) with an
api_error envelope exactly when the code is 502. -/
def replyOnForwardFailure (fr : ForwardResult) : Option (Nat × String × Option String) :=
  if fr.success then none
  else some (fr.errorCode.getD 500,
    (if fr.errorCode = some 502 then "api_error" else "invalid_request_error"),
    fr.error)

/-! ## Specification-side definitions

These definitions follow the wording of the specification rather than
the source; the refinement theorems below compare them with the source
embeddings above. -/

/-- Header criterion as the specification states it: locate the first
header whose name equals the configured field case-insensitively; with
a configured (truthy) expected value require exact case-sensitive
equality of the stored value, otherwise presence alone matches.  An
unconfigured (absent or empty) field never matches. -/
def headerCriterion (det : Detection) (headers : List (String × String)) : Bool :=
  if otruthy det.header_field then
    match headers.find? (fun kv => lowerStr kv.1 = lowerStr (det.header_field.getD "")) with
    | none => false
    | some kv => if otruthy det.header_value then kv.2 = det.header_value.getD "" else true
  else false

/-- Text of the inbound system segments as the specification describes
the no-replacement case: the texts of the type-text segments with
truthy text, joined by a blank line. -/
def originalSystemText (originalSystem : Option Json) : String :=
  buildSystemPrompt.joinParts
    (match originalSystem with
     | some (.arr items) =>
         items.filterMap (fun item =>
           if jsGet item "type" = .str "text" ∧ jsTruthy (jsGet item "text") then
             some (jsToString (jsGet item "text"))
           else none)
     | _ => [])

/-- Leading system message of the outbound list as the specification
states it: the replacement prompt when configured (inbound system
content discarded), otherwise the original inbound system text when
non-empty, otherwise nothing. -/
def leadSystemMessages (cfg : AugmentConfig) (sys : Option Json) : List ORMessage :=
  if otruthy cfg.modified_system_prompt then
    [{ role := "system", content := .str (cfg.modified_system_prompt.getD "") }]
  else if originalSystemText sys ≠ "" then
    [{ role := "system", content := .str (originalSystemText sys) }]
  else []

/-- One system message per configured additional instruction, in
configured order. -/
def instrMessages (instrs : List Json) : List ORMessage :=
  instrs.map (fun instruction => { role := "system", content := instruction })

/-- The final extra-context system message: pretty-printed JSON wrapped
between the literal context markers. -/
def contextMessage (ctx : Json) : ORMessage :=
  { role := "system", content := .str ("<context>\n" ++ stringify ctx ++ "\n</context>") }

/-- Instruction segment of the outbound prefix as the specification
states it, for an arbitrary policy: the configured instructions in
configured order, and nothing when the field is not a configured
array. -/
def instrMessagesFor : Option Json → List ORMessage
  | some (.arr instrs) => instrMessages instrs
  | _ => []

/-- Context segment of the outbound prefix as the specification states
it, for an arbitrary policy: the single wrapped context message when
extra context is configured (truthy), and nothing otherwise. -/
def contextMessagesFor : Option Json → List ORMessage
  | some ctx => if jsTruthy ctx then [contextMessage ctx] else []
  | none => []

/-! ## Frame-level view of the transcoder, used to state the streaming
ordering claim -/

/-- The two-part form of the JS split-and-pop idiom: completed parts
and the retained last (possibly partial) part. -/
def splitNl2 : List Char → List (List Char) × List Char
  | [] => ([], [])
  | c :: rest =>
      let p := splitNl2 rest
      if c = '\n' then ([] :: p.1, p.2)
      else match p.1 with
        | [] => ([], c :: p.2)
        | h :: t => ((c :: h) :: t, p.2)

/-- Complete lines of a stream prefix (everything before the last
newline). -/
def completedLines (s : List Char) : List (List Char) := (splitNl2 s).1

/-- The retained partial line after the last newline. -/
def pendingLine (s : List Char) : List Char := (splitNl2 s).2

/-- The frame a single line contributes: none for lines without the
data prefix, for the DONE sentinel and for malformed payloads. -/
def lineFrame (line : List Char) : Option Json :=
  if "data: ".data.isPrefixOf line then
    let jsonStr := jsTrim (line.drop 6)
    if jsonStr = "[DONE]".data then none
    else parseJson jsonStr
  else none

/-- Concatenated text of all received chunks. -/
def joinData (chunks : List String) : List Char := (chunks.map String.data).flatten

/-- Frame view of the whole stream: the successfully parsed frames of
the completed data lines, in arrival order. -/
def framesOf (chunks : List String) : List Json :=
  (completedLines (joinData chunks)).filterMap lineFrame

/-- Sequential processing of a list of parsed frames. -/
def processFrames (st : TCore) : List Json → TCore × List SseEvent
  | [] => (st, [])
  | f :: rest =>
      let p1 := processFrame st f
      let p2 := processFrames p1.1 rest
      (p2.1, p1.2 ++ p2.2)

/-- Every event of the list is a content_block_delta. -/
def AllDeltas (evs : List SseEvent) : Prop :=
  ∀ e ∈ evs, ∃ t, e = SseEvent.content_block_delta t

/-- The event-stream shape the specification promises: exactly one
message_start, then one content_block_start, then zero or more deltas,
then one content_block_stop, one message_delta and one message_stop, in
that order. -/
def StreamShape (evs : List SseEvent) : Prop :=
  ∃ m ds r u,
    evs = SseEvent.message_start m :: SseEvent.content_block_start ::
      (ds ++ [SseEvent.content_block_stop, SseEvent.message_delta r u, SseEvent.message_stop])
    ∧ AllDeltas ds

/-! ## Sample policies and requests used by the witnesses -/

/-- Sample detection spec matching the repository default. -/
def detectSample : Detection :=
  { header_field := some "x-agent", header_value := some "claude-code"
    metadata_field := none, metadata_value := none }

/-- Sample request carrying the detection header. -/
def sampleReq : AugmentRequest :=
  { body := { model := "claude-3-sonnet"
              messages := [{ role := "user", content := .str "Hello" }]
              system := none, tools := none, stream := none, max_tokens := none
              metadata := none, extra := [] }
    headers := [("x-agent", "claude-code")] }

/-- Sample policy with an empty auth token (validation failure case). -/
def cfgBadAuth : AugmentConfig :=
  { enabled := true, modified_system_prompt := none
    additional_instructions := none, extra_context := none
    openrouter_endpoint := "https://openrouter.ai/api/v1/chat/completions"
    openrouter_auth := "", detection := detectSample }

/-- Sample fully configured policy. -/
def cfgFull : AugmentConfig :=
  { enabled := true, modified_system_prompt := some "X"
    additional_instructions := some (.arr [.str "I1", .str "I2"])
    extra_context := some (.obj [("a", .num 1)])
    openrouter_endpoint := "https://openrouter.ai/api/v1/chat/completions"
    openrouter_auth := "sk-or-test-key", detection := detectSample }

/-- Sample valid policy with neither additional instructions nor extra
context configured. -/
def cfgMinimal : AugmentConfig :=
  { enabled := true, modified_system_prompt := none
    additional_instructions := none, extra_context := none
    openrouter_endpoint := "https://openrouter.ai/api/v1/chat/completions"
    openrouter_auth := "sk-or-test-key", detection := detectSample }

/-- Sample request with inbound system text and a two-turn history. -/
def reqFull : AugmentRequest :=
  { body := { model := "claude-3-sonnet"
              messages := [{ role := "user", content := .str "A" },
                           { role := "system", content := .str "S" },
                           { role := "assistant", content := .str "B" }]
              system := some (.arr [.obj [("type", .str "text"), ("text", .str "Y")]])
              tools := none, stream := none, max_tokens := none
              metadata := none, extra := [] }
    headers := [("x-agent", "claude-code")] }

/-! # Theorems -/

/-! ## C6: finish-reason mapping -/

/-- C6: mapFinishReason is a total function: stop maps to end_turn,
length to max_tokens, tool_calls to tool_use, function_call to
tool_use, content_filter to stop_sequence, and every other or absent
finish-reason code maps to end_turn; it never fails (it is a total Lean
function). -/
theorem c6_mapFinishReason_total :
    mapFinishReason (some "stop") = "end_turn"
    ∧ mapFinishReason (some "length") = "max_tokens"
    ∧ mapFinishReason (some "tool_calls") = "tool_use"
    ∧ mapFinishReason (some "function_call") = "tool_use"
    ∧ mapFinishReason (some "content_filter") = "stop_sequence"
    ∧ mapFinishReason none = "end_turn"
    ∧ ∀ r : String,
        r ∉ (["stop", "length", "tool_calls", "function_call", "content_filter"] : List String) →
        mapFinishReason (some r) = "end_turn" := by
  refine ⟨rfl, rfl, rfl, rfl, rfl, rfl, ?_⟩
  intro r hr
  simp only [mapFinishReason]
  split_ifs with h1 h2 h3 h4 h5
  · simp [h1] at hr
  · simp [h2] at hr
  · simp [h3] at hr
  · simp [h4] at hr
  · simp [h5] at hr
  · rfl

/-- Witness for C6 at the concrete unrecognized code "eos". -/
theorem c6_witness : mapFinishReason (some "eos") = "end_turn" :=
  c6_mapFinishReason_total.2.2.2.2.2.2 "eos" (by decide)

/-! ## C2: transport errors -/

/-- C2 counterexample: an exception whose code is EPIPE (a low-level
transport error code not in the forwarder list) and whose name is not
TypeError produces errorCode 500, a message not containing the text
Network error, and an invalid_request_error envelope with status 500 —
refuting the claim that every transport exception yields 502 with a
Network error message and an api_error envelope. -/
theorem c2_counterexample :
    (forwardCatch { name := "Error", message := "broken pipe", code := some "EPIPE" }).errorCode
      = some 500
    ∧ (forwardCatch { name := "Error", message := "broken pipe", code := some "EPIPE" }).errorCode
      ≠ some 502
    ∧ ¬ ("Network error".data <:+:
        ((forwardCatch { name := "Error", message := "broken pipe", code := some "EPIPE" }).error.getD "").data)
    ∧ replyOnForwardFailure
        (forwardCatch { name := "Error", message := "broken pipe", code := some "EPIPE" })
      = some (500, "invalid_request_error", some "Forward error: broken pipe") := by
  refine ⟨rfl, by decide, by decide, rfl⟩

/-- C2 (amended): for every exception whose code is ECONNREFUSED,
ENOTFOUND or ETIMEDOUT, or whose name is TypeError, forward returns a
failure result with errorCode 502 and an error message containing
"Network error", and the middleware replies with the error envelope of
type api_error and status 502. -/
theorem c2_network_errors (e : JsError)
    (h : e.code = some "ECONNREFUSED" ∨ e.code = some "ENOTFOUND"
        ∨ e.code = some "ETIMEDOUT" ∨ e.name = "TypeError") :
    (forwardCatch e).success = false
    ∧ (forwardCatch e).errorCode = some 502
    ∧ (∃ m, (forwardCatch e).error = some m ∧ "Network error".data <:+: m.data)
    ∧ replyOnForwardFailure (forwardCatch e) = some (502, "api_error", (forwardCatch e).error) := by
  have hc : forwardCatch e =
      { success := false
        error := some ("Network error: Unable to reach OpenRouter endpoint - " ++ e.message)
        errorCode := some 502 } := by
    unfold forwardCatch
    rw [if_pos h]
  refine ⟨by rw [hc], by rw [hc], ?_, by rw [hc]; rfl⟩
  refine ⟨_, by rw [hc], ?_⟩
  have hpre : "Network error".data <+:
      ("Network error: Unable to reach OpenRouter endpoint - " ++ e.message).data := by
    rw [String.data_append]
    have : "Network error".data <+: "Network error: Unable to reach OpenRouter endpoint - ".data := by
      decide
    exact this.trans (List.prefix_append _ _)
  exact hpre.isInfix

/-! ## C5: detection rule -/

/-- The header scan loop agrees with the first case-insensitive find:
the loop decides on the first entry whose lowercased name matches. -/
theorem scanHeaders_eq_find (hn : String) (hv : Option String) (headers : List (String × String)) :
    scanHeaders hn hv headers
      = (match headers.find? (fun kv => lowerStr kv.1 = hn) with
         | none => false
         | some kv => if otruthy hv then kv.2 = hv.getD "" else true) := by
  induction headers with
  | nil => rfl
  | cons kv rest ih =>
      obtain ⟨k, v⟩ := kv
      by_cases h : lowerStr k = hn
      · simp [scanHeaders, List.find?_cons, h]
      · simp [scanHeaders, List.find?_cons, h, ih]

/-- C5: isClaudeCodeRequest returns false when policy.enabled is false;
otherwise it is the inclusive OR of the header criterion (first
case-insensitive name match, exact case-sensitive value comparison when
a value is configured, presence alone otherwise) and the metadata
criterion; with neither detection field configured (set and non-empty)
the rule never matches. -/
theorem c5_detection_rule (cfg : AugmentConfig) (req : AugmentRequest) :
    (cfg.enabled = false → isClaudeCodeRequest cfg req = false)
    ∧ isClaudeCodeRequest cfg req
        = (cfg.enabled && (headerCriterion cfg.detection req.headers
            || checkMetadata cfg.detection req.body.metadata))
    ∧ (otruthy cfg.detection.header_field = false →
       otruthy cfg.detection.metadata_field = false →
       isClaudeCodeRequest cfg req = false) := by
  have hch : checkHeader cfg.detection req.headers = headerCriterion cfg.detection req.headers := by
    unfold checkHeader headerCriterion
    by_cases h : otruthy cfg.detection.header_field
    · simp only [h, if_true, scanHeaders_eq_find]
    · simp [h]
  refine ⟨?_, ?_, ?_⟩
  · intro h
    simp [isClaudeCodeRequest, h]
  · by_cases he : cfg.enabled
    · cases hA : headerCriterion cfg.detection req.headers
        <;> cases hB : checkMetadata cfg.detection req.body.metadata
        <;> simp [isClaudeCodeRequest, he, hch, hA, hB]
    · simp [isClaudeCodeRequest, he]
  · intro h1 h2
    have hm : checkMetadata cfg.detection req.body.metadata = false := by
      unfold checkMetadata
      simp [h2]
    have hh : headerCriterion cfg.detection req.headers = false := by
      unfold headerCriterion
      simp [h1]
    simp [isClaudeCodeRequest, hch, hh, hm]

/-- Witness for C5: a disabled policy never matches, and on the enabled
sample policy the result equals the OR of the two criteria. -/
theorem c5_witness :
    isClaudeCodeRequest { cfgFull with enabled := false } sampleReq = false
    ∧ isClaudeCodeRequest cfgFull sampleReq
        = (cfgFull.enabled && (headerCriterion cfgFull.detection sampleReq.headers
            || checkMetadata cfgFull.detection sampleReq.body.metadata)) :=
  ⟨(c5_detection_rule { cfgFull with enabled := false } sampleReq).1 rfl,
   (c5_detection_rule cfgFull sampleReq).2.1⟩

/-! ## C8: metadata path traversal is total and never matches on
failure -/

/-- Propagation: once the descent has resolved to undefined it stays
undefined for the remaining keys. -/
theorem getNestedKeys_undef : ∀ rest : List String, getNestedKeys .undef rest = .undef := by
  intro rest
  induction rest with
  | nil => rfl
  | cons k rest ih =>
      show getNestedKeys (nestedStep .undef k) rest = .undef
      have : nestedStep .undef k = .undef := by simp [nestedStep]
      rw [this, ih]

/-- C8: the metadata lookup is a total function (it is defined by
structural descent and never raises).  Descending into an intermediate
value that is not an object (including null and undefined), or
following a key absent from an object, resolves to undefined, and a
path that resolves to undefined makes the metadata criterion return
false. -/
theorem c8_lookup_safe :
    (∀ (m : Json) (path : String),
        getNestedValue m path = getNestedKeys m ((splitCh '.' path.data).map String.mk))
    ∧ (∀ (j : Json) (key : String) (rest : List String),
        (jsTypeof j ≠ "object" ∨ j = .null ∨ j = .undef) →
        getNestedKeys j (key :: rest) = .undef)
    ∧ (∀ (fields : List (String × Json)) (key : String) (rest : List String),
        fields.lookup key = none →
        getNestedKeys (.obj fields) (key :: rest) = .undef)
    ∧ (∀ (det : Detection) (m : Json),
        getNestedValue m (det.metadata_field.getD "") = .undef →
        checkMetadata det (some m) = false) := by
  refine ⟨fun _ _ => rfl, ?_, ?_, ?_⟩
  · intro j key rest hj
    show getNestedKeys (nestedStep j key) rest = .undef
    have hstep : nestedStep j key = .undef := by
      unfold nestedStep
      rcases hj with hj | hj | hj
      · by_cases hn : j = Json.null ∨ j = Json.undef
        · simp [hn]
        · simp [hn, hj]
      · simp [hj]
      · simp [hj]
    rw [hstep, getNestedKeys_undef]
  · intro fields key rest hl
    show getNestedKeys (nestedStep (.obj fields) key) rest = .undef
    have hstep : nestedStep (.obj fields) key = .undef := by
      unfold nestedStep
      simp [jsTypeof, jsGet, hl]
    rw [hstep, getNestedKeys_undef]
  · intro det m hund
    unfold checkMetadata
    by_cases hf : otruthy det.metadata_field
    · simp only [hf]
      by_cases ht : jsTruthy m
      · by_cases hty : jsTypeof m = "object"
        · simp [ht, hty, hund]
        · simp [ht, hty]
      · simp [ht]
    · simp [hf]

/-- Witness for C8: the dotted path a.b over metadata with a numeric
field a resolves to undefined and the criterion fails. -/
theorem c8_witness :
    checkMetadata
      { header_field := none, header_value := none
        metadata_field := some "a.b", metadata_value := none }
      (some (.obj [("a", .num 5)])) = false :=
  c8_lookup_safe.2.2.2
    { header_field := none, header_value := none
      metadata_field := some "a.b", metadata_value := none }
    (.obj [("a", .num 5)]) (by decide)

/-! ## C7: single-text-block collapse -/

/-- C7: for message content given as a block sequence, convertContent
collapses the converted sequence to the bare text exactly when the
conversion yields one block of type text; a single converted block of
any other type and any result of length other than one (in particular
every multi-block result) stay a sequence. -/
theorem c7_collapse (blocks : List Json) :
    (∀ c, convertBlocks blocks = [c] → jsGet c "type" = .str "text" →
        convertContent (.arr blocks) = jsGet c "text")
    ∧ (∀ c, convertBlocks blocks = [c] → jsGet c "type" ≠ .str "text" →
        convertContent (.arr blocks) = .arr [c])
    ∧ ((convertBlocks blocks).length ≠ 1 →
        convertContent (.arr blocks) = .arr (convertBlocks blocks)) := by
  refine ⟨?_, ?_, ?_⟩
  · intro c hc ht
    simp only [convertContent, hc]
    rw [if_pos ht]
  · intro c hc ht
    simp only [convertContent, hc]
    rw [if_neg ht]
  · intro h
    rcases hc : convertBlocks blocks with _ | ⟨a, _ | ⟨b, t⟩⟩
    · simp only [convertContent, hc]
    · rw [hc] at h
      simp at h
    · simp only [convertContent, hc]

/-- Witness for C7: a text plus image block sequence converts to two
blocks and does not collapse; the single-text sequence collapses. -/
theorem c7_witness :
    convertContent (.arr [.obj [("type", .str "text"), ("text", .str "hi")]])
      = .str "hi"
    ∧ convertContent (.arr [.obj [("type", .str "text"), ("text", .str "hi")],
        .obj [("type", .str "image"),
          ("source", .obj [("type", .str "url"), ("url", .str "http://x/y.png")])]])
      = .arr (convertBlocks [.obj [("type", .str "text"), ("text", .str "hi")],
          .obj [("type", .str "image"),
            ("source", .obj [("type", .str "url"), ("url", .str "http://x/y.png")])]]) :=
  ⟨(c7_collapse [.obj [("type", .str "text"), ("text", .str "hi")]]).1
      (.obj [("type", .str "text"), ("text", .str "hi")]) (by decide) (by decide),
   (c7_collapse [.obj [("type", .str "text"), ("text", .str "hi")],
      .obj [("type", .str "image"),
        ("source", .obj [("type", .str "url"), ("url", .str "http://x/y.png")])]]).2.2
      (by decide)⟩

/-! ## C10: image blocks with unrecognized source are dropped -/

/-- The block conversion loop distributes over concatenation. -/
theorem convertBlocks_append (xs ys : List Json) :
    convertBlocks (xs ++ ys) = convertBlocks xs ++ convertBlocks ys := by
  induction xs with
  | nil => rfl
  | cons b rest ih =>
      simp only [List.cons_append, convertBlocks]
      split_ifs <;> simp [ih]

/-- C10: a content block of type image whose source.type is neither
base64 nor url (including an absent source) contributes no output
block — it is dropped from the converted sequence — while a block of
unrecognized top-level type passes through unchanged in place. -/
theorem c10_image_source_dropped (b : Json) (pre post : List Json)
    (himg : jsGet b "type" = .str "image")
    (hs1 : jsGet (jsGet b "source") "type" ≠ .str "base64")
    (hs2 : jsGet (jsGet b "source") "type" ≠ .str "url") :
    convertBlocks (pre ++ b :: post) = convertBlocks pre ++ convertBlocks post
    ∧ ∀ u : Json,
        jsGet u "type" ≠ .str "text" → jsGet u "type" ≠ .str "image" →
        jsGet u "type" ≠ .str "tool_use" → jsGet u "type" ≠ .str "tool_result" →
        convertBlocks (pre ++ u :: post) = convertBlocks pre ++ u :: convertBlocks post := by
  constructor
  · rw [convertBlocks_append]
    have hb : convertBlocks (b :: post) = convertBlocks post := by
      simp only [convertBlocks]
      rw [if_neg (by simp [himg]), if_pos himg, if_neg hs1, if_neg hs2]
    rw [hb]
  · intro u h1 h2 h3 h4
    rw [convertBlocks_append]
    have hb : convertBlocks (u :: post) = u :: convertBlocks post := by
      simp only [convertBlocks]
      rw [if_neg h1, if_neg h2, if_neg h3, if_neg h4]
    rw [hb]

/-- Witness for C10: an image block with absent source disappears
between a text block and an unrecognized thinking block, and the
thinking block passes through. -/
theorem c10_witness :
    convertBlocks [.obj [("type", .str "text"), ("text", .str "t")],
        .obj [("type", .str "image")],
        .obj [("type", .str "thinking"), ("thinking", .str "…")]]
      = convertBlocks [.obj [("type", .str "text"), ("text", .str "t")]]
        ++ convertBlocks [.obj [("type", .str "thinking"), ("thinking", .str "…")]] :=
  (c10_image_source_dropped (.obj [("type", .str "image")])
    [.obj [("type", .str "text"), ("text", .str "t")]]
    [.obj [("type", .str "thinking"), ("thinking", .str "…")]]
    (by decide) (by decide) (by decide)).1

/-! ## C9: usage counter updates in the streaming transcoder -/

/-- C9 counterexample: a frame carrying usage with completion_tokens 0
after an earlier count of 10 leaves the output counter at 10 — the
later value 0 does not overwrite the earlier one, refuting the claim
that later usage values always overwrite. -/
theorem c9_counterexample :
    jsTruthy (jsGet (Json.obj [("usage", .obj [("completion_tokens", .num 0)])]) "usage") = true
    ∧ jsGet (jsGet (Json.obj [("usage", .obj [("completion_tokens", .num 0)])]) "usage")
        "completion_tokens" = .num 0
    ∧ (processFrame { inputTokens := .num 3, outputTokens := .num 10, sentStart := true }
        (Json.obj [("usage", .obj [("completion_tokens", .num 0)])])).1.outputTokens = .num 10
    ∧ (processFrame { inputTokens := .num 3, outputTokens := .num 10, sentStart := true }
        (Json.obj [("usage", .obj [("completion_tokens", .num 0)])])).1.outputTokens
      ≠ .num 0 := by
  refine ⟨rfl, rfl, rfl, by decide⟩

/-- C9 (amended): a frame without truthy usage leaves both counters
unchanged; a frame with usage overwrites each counter with the carried
count when that count is truthy (non-zero, present) and keeps the
previous value otherwise; when the frame carries a truthy finish
reason the emitted message_delta carries the output-token counter as
updated by that same frame. -/
theorem c9_usage_update (st : TCore) (f : Json) :
    (jsTruthy (jsGet f "usage") = false →
        (processFrame st f).1.inputTokens = st.inputTokens
        ∧ (processFrame st f).1.outputTokens = st.outputTokens)
    ∧ (jsTruthy (jsGet f "usage") = true →
        (processFrame st f).1.inputTokens
          = (if jsTruthy (jsGet (jsGet f "usage") "prompt_tokens") then
               jsGet (jsGet f "usage") "prompt_tokens" else st.inputTokens)
        ∧ (processFrame st f).1.outputTokens
          = (if jsTruthy (jsGet (jsGet f "usage") "completion_tokens") then
               jsGet (jsGet f "usage") "completion_tokens" else st.outputTokens))
    ∧ (jsTruthy (finishReason f) = true →
        SseEvent.message_delta (mapFinishReason (some (jsToString (finishReason f))))
          (processFrame st f).1.outputTokens ∈ (processFrame st f).2) := by
  refine ⟨?_, ?_, ?_⟩
  · intro hu
    by_cases hs : st.sentStart <;>
      simp [processFrame, usageUpdate, startEvents, hu, hs]
  · intro hu
    by_cases hs : st.sentStart <;>
      simp [processFrame, usageUpdate, startEvents, jsOr, hu, hs]
  · intro hf
    simp [processFrame, hf, List.mem_append]

/-- Witness for C9 at a frame carrying usage, content and a finish
reason. -/
theorem c9_witness :
    (jsTruthy (jsGet (Json.obj [("usage", .obj [("prompt_tokens", .num 7),
          ("completion_tokens", .num 4)]),
        ("choices", .arr [.obj [("finish_reason", .str "stop")]])]) "usage") = true →
      (processFrame { inputTokens := .num 0, outputTokens := .num 0, sentStart := true }
          (Json.obj [("usage", .obj [("prompt_tokens", .num 7), ("completion_tokens", .num 4)]),
            ("choices", .arr [.obj [("finish_reason", .str "stop")]])])).1.inputTokens
        = (if jsTruthy (jsGet (jsGet (Json.obj [("usage", .obj [("prompt_tokens", .num 7),
              ("completion_tokens", .num 4)]),
            ("choices", .arr [.obj [("finish_reason", .str "stop")]])]) "usage") "prompt_tokens") then
            jsGet (jsGet (Json.obj [("usage", .obj [("prompt_tokens", .num 7),
                ("completion_tokens", .num 4)]),
              ("choices", .arr [.obj [("finish_reason", .str "stop")]])]) "usage") "prompt_tokens"
          else (Json.num 0))
        ∧ (processFrame { inputTokens := .num 0, outputTokens := .num 0, sentStart := true }
            (Json.obj [("usage", .obj [("prompt_tokens", .num 7), ("completion_tokens", .num 4)]),
              ("choices", .arr [.obj [("finish_reason", .str "stop")]])])).1.outputTokens
          = (if jsTruthy (jsGet (jsGet (Json.obj [("usage", .obj [("prompt_tokens", .num 7),
                ("completion_tokens", .num 4)]),
              ("choices", .arr [.obj [("finish_reason", .str "stop")]])]) "usage")
                "completion_tokens") then
              jsGet (jsGet (Json.obj [("usage", .obj [("prompt_tokens", .num 7),
                  ("completion_tokens", .num 4)]),
                ("choices", .arr [.obj [("finish_reason", .str "stop")]])]) "usage")
                "completion_tokens"
            else (Json.num 0))) :=
  (c9_usage_update { inputTokens := .num 0, outputTokens := .num 0, sentStart := true }
    (Json.obj [("usage", .obj [("prompt_tokens", .num 7), ("completion_tokens", .num 4)]),
      ("choices", .arr [.obj [("finish_reason", .str "stop")]])])).2.1

/-! ## C3: outbound message prefix -/

/-- With a configured replacement prompt, buildSystemPrompt returns the
replacement and discards the inbound system content. -/
theorem buildSystemPrompt_modified (cfg : AugmentConfig) (sys : Option Json)
    (h : otruthy cfg.modified_system_prompt = true) :
    buildSystemPrompt cfg sys = cfg.modified_system_prompt.getD "" := by
  have hfm : ∀ items : List Json,
      items.filterMap (fun item =>
        if jsGet item "type" = .str "text" ∧ jsTruthy (jsGet item "text")
            ∧ ¬ otruthy cfg.modified_system_prompt then
          some (jsGet item "text")
        else none) = [] := by
    intro items
    induction items with
    | nil => rfl
    | cons it rest ih => simp [List.filterMap_cons, h, ih]
  have hnone : ∀ l : List Json, l.filterMap (fun _ => (none : Option Json)) = [] := by
    intro l
    induction l with
    | nil => rfl
    | cons a rest ih => simp [List.filterMap_cons, ih]
  unfold buildSystemPrompt
  cases sys with
  | none => simp [h, buildSystemPrompt.joinParts, jsToString]
  | some j =>
      cases j <;> simp [h, hfm, hnone, buildSystemPrompt.joinParts, jsToString]

/-- Without a replacement prompt, buildSystemPrompt returns the joined
inbound system text. -/
theorem buildSystemPrompt_original (cfg : AugmentConfig) (sys : Option Json)
    (h : otruthy cfg.modified_system_prompt = false) :
    buildSystemPrompt cfg sys = originalSystemText sys := by
  have hfm : ∀ items : List Json,
      (items.filterMap (fun item =>
        if jsGet item "type" = .str "text" ∧ jsTruthy (jsGet item "text")
            ∧ ¬ otruthy cfg.modified_system_prompt then
          some (jsGet item "text")
        else none)).map jsToString
      = items.filterMap (fun item =>
          if jsGet item "type" = .str "text" ∧ jsTruthy (jsGet item "text") then
            some (jsToString (jsGet item "text"))
          else none) := by
    intro items
    induction items with
    | nil => rfl
    | cons it rest ih =>
        by_cases hc : jsGet it "type" = .str "text" ∧ jsTruthy (jsGet it "text")
        · have hcond : jsGet it "type" = Json.str "text" ∧ jsTruthy (jsGet it "text") = true
              ∧ ¬ otruthy cfg.modified_system_prompt = true :=
            ⟨hc.1, hc.2, by simp [h]⟩
          rw [List.filterMap_cons, List.filterMap_cons, if_pos hcond, if_pos hc,
            List.map_cons, ih]
        · have hcond : ¬ (jsGet it "type" = Json.str "text" ∧ jsTruthy (jsGet it "text") = true
              ∧ ¬ otruthy cfg.modified_system_prompt = true) := by
            intro hx
            exact hc ⟨hx.1, hx.2.1⟩
          rw [List.filterMap_cons, List.filterMap_cons, if_neg hcond, if_neg hc, ih]
  unfold buildSystemPrompt originalSystemText
  cases sys with
  | none => simp [h]
  | some j =>
      cases j with
      | arr items =>
          simp only [List.map_append]
          rw [hfm items, if_neg (by simp [h])]
          simp
      | undef => simp [h]
      | null => simp [h]
      | bool b => simp [h]
      | num n => simp [h]
      | str s => simp [h]
      | obj fs => simp [h]

/-- The message conversion loop is the order-preserving filter of the
non-system messages followed by the per-message content conversion. -/
theorem convertMessages_eq (msgs : List MessageParam) :
    convertMessages msgs
      = (msgs.filter (fun m => ¬ m.role = "system")).map
          (fun m => { role := m.role, content := convertContent m.content }) := by
  induction msgs with
  | nil => rfl
  | cons m rest ih =>
      by_cases h : m.role = "system" <;>
        simp [convertMessages, List.filter_cons, h, ih]

/-- C3: for every valid policy and inbound request, the outbound
message list is, in order: the leading system message (the replacement
prompt when configured, the inbound system content being discarded;
otherwise the inbound system text when non-empty), one system message
per configured additional instruction in configured order (none when
unconfigured), then, when extra context is configured, one final system
message wrapping the pretty-printed JSON context between the literal
context markers, and then the converted user and assistant messages in
their original relative order. -/
theorem c3_augmented_prefix (cfg : AugmentConfig) (req : AugmentRequest)
    (hok : (validateConfig cfg).success = true) :
    (augmentRequest cfg req).1.messages
      = some (leadSystemMessages cfg req.body.system
          ++ instrMessagesFor cfg.additional_instructions
          ++ contextMessagesFor cfg.extra_context
          ++ (req.body.messages.filter (fun m => ¬ m.role = "system")).map
              (fun m => { role := m.role, content := convertContent m.content })) := by
  have hm1 : (if buildSystemPrompt cfg req.body.system ≠ "" then
        [({ role := "system", content := .str (buildSystemPrompt cfg req.body.system) } : ORMessage)]
      else []) = leadSystemMessages cfg req.body.system := by
    by_cases hmod : otruthy cfg.modified_system_prompt = true
    · have hne : cfg.modified_system_prompt.getD "" ≠ "" := by
        cases hcm : cfg.modified_system_prompt with
        | none => rw [hcm] at hmod; simp [otruthy] at hmod
        | some s => rw [hcm] at hmod; simpa [otruthy] using hmod
      rw [buildSystemPrompt_modified cfg req.body.system hmod]
      unfold leadSystemMessages
      rw [if_pos hmod, if_pos hne]
    · have hmod' : otruthy cfg.modified_system_prompt = false := by
        simpa using hmod
      rw [buildSystemPrompt_original cfg req.body.system hmod']
      unfold leadSystemMessages
      rw [if_neg hmod]
  have hm2 : instrMessagesOf cfg.additional_instructions
      = instrMessagesFor cfg.additional_instructions := by
    cases ho : cfg.additional_instructions with
    | none => rfl
    | some j =>
        cases j with
        | arr instrs => cases instrs <;> simp [instrMessagesOf, instrMessagesFor, instrMessages]
        | undef => rfl
        | null => rfl
        | bool b => rfl
        | num n => rfl
        | str s => rfl
        | obj fs => rfl
  have hm3 : contextMessagesOf cfg.extra_context = contextMessagesFor cfg.extra_context := by
    cases cfg.extra_context <;> rfl
  unfold augmentRequest
  rw [if_neg (by simp [hok])]
  dsimp only
  rw [hm1, hm2, hm3, convertMessages_eq]

/-- Witness for C3 at the fully configured sample policy and at the
minimal valid policy without instructions or extra context. -/
theorem c3_witness :
    ((augmentRequest cfgFull reqFull).1.messages
      = some (leadSystemMessages cfgFull reqFull.body.system
          ++ instrMessagesFor cfgFull.additional_instructions
          ++ contextMessagesFor cfgFull.extra_context
          ++ (reqFull.body.messages.filter (fun m => ¬ m.role = "system")).map
              (fun m => { role := m.role, content := convertContent m.content })))
    ∧ ((augmentRequest cfgMinimal reqFull).1.messages
      = some (leadSystemMessages cfgMinimal reqFull.body.system
          ++ instrMessagesFor cfgMinimal.additional_instructions
          ++ contextMessagesFor cfgMinimal.extra_context
          ++ (reqFull.body.messages.filter (fun m => ¬ m.role = "system")).map
              (fun m => { role := m.role, content := convertContent m.content }))) :=
  ⟨ c3_augmented_prefix cfgFull reqFull rfl,
    c3_augmented_prefix cfgMinimal reqFull rfl⟩

/-! ## C4: policy validation failures -/

/-- C4: if the policy fails validation (empty openrouter_endpoint,
empty openrouter_auth, truthy non-array additional_instructions, or
truthy non-object extra_context — the JS truthiness guard skips falsy
values of the two optional fields), augmentRequest returns a failure
result with errorCode 400 and a message naming the offending field,
together with the empty outbound request, and the middleware replies
400 with an invalid_request_error envelope; the rejected outcome is
reached before the forward step, so no network call is attempted. -/
theorem c4_validation_failure (cfg : AugmentConfig) (req : AugmentRequest)
    (hen : cfg.enabled = true)
    (hdet : isClaudeCodeRequest cfg req = true)
    (hbad : cfg.openrouter_endpoint = "" ∨ cfg.openrouter_auth = ""
        ∨ badInstructions cfg.additional_instructions = true
        ∨ badContext cfg.extra_context = true) :
    ∃ m fld,
      (augmentRequest cfg req).2
        = { success := false, augmented := false, error := some m, errorCode := some 400 }
      ∧ (augmentRequest cfg req).1 = emptyORRequest
      ∧ handleStep cfg req = .rejected 400 "invalid_request_error" (some m)
      ∧ fld.data <:+: m.data
      ∧ ((fld = "openrouter_endpoint" ∧ cfg.openrouter_endpoint = "")
         ∨ (fld = "openrouter_auth" ∧ cfg.openrouter_auth = "")
         ∨ (fld = "additional_instructions" ∧ badInstructions cfg.additional_instructions = true)
         ∨ (fld = "extra_context" ∧ badContext cfg.extra_context = true)) := by
  suffices h : ∃ m fld,
      validateConfig cfg
        = { success := false, augmented := false, error := some m, errorCode := some 400 }
      ∧ fld.data <:+: m.data
      ∧ ((fld = "openrouter_endpoint" ∧ cfg.openrouter_endpoint = "")
         ∨ (fld = "openrouter_auth" ∧ cfg.openrouter_auth = "")
         ∨ (fld = "additional_instructions" ∧ badInstructions cfg.additional_instructions = true)
         ∨ (fld = "extra_context" ∧ badContext cfg.extra_context = true)) by
    obtain ⟨m, fld, hv, hinf, hfld⟩ := h
    refine ⟨m, fld, ?_, ?_, ?_, hinf, hfld⟩
    · simp [augmentRequest, hv]
    · simp [augmentRequest, hv]
    · simp [handleStep, hen, hdet, augmentRequest, hv]
  by_cases h1 : cfg.openrouter_endpoint = ""
  · exact ⟨"Missing required parameter: openrouter_endpoint", "openrouter_endpoint",
      by simp [validateConfig, h1], by decide, Or.inl ⟨rfl, h1⟩⟩
  by_cases h2 : cfg.openrouter_auth = ""
  · exact ⟨"Missing required parameter: openrouter_auth", "openrouter_auth",
      by simp [validateConfig, h1, h2], by decide, Or.inr (Or.inl ⟨rfl, h2⟩)⟩
  by_cases h3 : badInstructions cfg.additional_instructions = true
  · exact ⟨"Invalid parameter: additional_instructions must be an array", "additional_instructions",
      by simp [validateConfig, h1, h2, h3], by decide, Or.inr (Or.inr (Or.inl ⟨rfl, h3⟩))⟩
  by_cases h4 : badContext cfg.extra_context = true
  · exact ⟨"Invalid parameter: extra_context must be an object", "extra_context",
      by simp [validateConfig, h1, h2, h3, h4], by decide, Or.inr (Or.inr (Or.inr ⟨rfl, h4⟩))⟩
  · rcases hbad with hb | hb | hb | hb
    · exact absurd hb h1
    · exact absurd hb h2
    · exact absurd hb h3
    · exact absurd hb h4

/-- Witness for C4 at the sample policy with empty auth token. -/
theorem c4_witness :
    ∃ m fld,
      (augmentRequest cfgBadAuth sampleReq).2
        = { success := false, augmented := false, error := some m, errorCode := some 400 }
      ∧ (augmentRequest cfgBadAuth sampleReq).1 = emptyORRequest
      ∧ handleStep cfgBadAuth sampleReq = .rejected 400 "invalid_request_error" (some m)
      ∧ fld.data <:+: m.data
      ∧ ((fld = "openrouter_endpoint" ∧ cfgBadAuth.openrouter_endpoint = "")
         ∨ (fld = "openrouter_auth" ∧ cfgBadAuth.openrouter_auth = "")
         ∨ (fld = "additional_instructions" ∧ badInstructions cfgBadAuth.additional_instructions = true)
         ∨ (fld = "extra_context" ∧ badContext cfgBadAuth.extra_context = true)) :=
  c4_validation_failure cfgBadAuth sampleReq rfl (by decide) (Or.inr (Or.inl rfl))

/-! ## C1: streaming event ordering -/

/-- The split used by the transcoder equals the completed-parts plus
pending-part view. -/
theorem splitCh_eq_splitNl2 (s : List Char) :
    splitCh '\n' s = (splitNl2 s).1 ++ [(splitNl2 s).2] := by
  induction s with
  | nil => rfl
  | cons c rest ih =>
      by_cases h : c = '\n'
      · simp [splitCh, splitNl2, h, ih]
      · simp only [splitCh, splitNl2, h, if_false, if_neg h, ih]
        cases hp : (splitNl2 rest).1 with
        | nil => simp [hp]
        | cons ph pt => simp [hp]

/-- Unfolding equation of splitNl2 on a cons cell. -/
theorem splitNl2_cons (c : Char) (s : List Char) :
    splitNl2 (c :: s)
      = if c = '\n' then ([] :: (splitNl2 s).1, (splitNl2 s).2)
        else match (splitNl2 s).1 with
          | [] => ([], c :: (splitNl2 s).2)
          | h :: t => ((c :: h) :: t, (splitNl2 s).2) := rfl

/-- Composition of the split across a concatenation: the completed
parts of the left side, then the splits of the pending part glued to
the right side. -/
theorem splitNl2_append (a b : List Char) :
    splitNl2 (a ++ b)
      = ((splitNl2 a).1 ++ (splitNl2 ((splitNl2 a).2 ++ b)).1,
         (splitNl2 ((splitNl2 a).2 ++ b)).2) := by
  induction a with
  | nil => simp [splitNl2]
  | cons c rest ih =>
      rw [show (c :: rest) ++ b = c :: (rest ++ b) from rfl, splitNl2_cons, splitNl2_cons]
      by_cases h : c = '\n'
      · rw [if_pos h, if_pos h, ih]
        rfl
      · rw [if_neg h, if_neg h, ih]
        cases hp : (splitNl2 rest).1 with
        | nil =>
            simp only [hp, List.nil_append]
            rw [show ((c :: (splitNl2 rest).2) ++ b) = c :: ((splitNl2 rest).2 ++ b) from rfl,
              splitNl2_cons, if_neg h]
        | cons ph pt => simp [hp]

/-- A separator-free text splits into no completed part and itself
pending. -/
theorem splitNl2_no_nl (s : List Char) (h : '\n' ∉ s) : splitNl2 s = ([], s) := by
  induction s with
  | nil => rfl
  | cons c rest ih =>
      have hc : ¬ c = '\n' := fun hc => h (hc ▸ List.mem_cons_self c rest)
      have hr : '\n' ∉ rest := fun hr => h (List.mem_cons_of_mem c hr)
      simp [splitNl2, hc, ih hr]

/-- The pending part never contains a newline. -/
theorem pendingLine_no_nl (s : List Char) : '\n' ∉ pendingLine s := by
  induction s with
  | nil => simp [pendingLine, splitNl2]
  | cons c rest ih =>
      by_cases h : c = '\n'
      · simpa [pendingLine, splitNl2, h] using ih
      · simp only [pendingLine, splitNl2, if_neg h] at ih ⊢
        cases hp : (splitNl2 rest).1 with
        | nil =>
            simp only [hp]
            intro hmem
            rcases List.mem_cons.mp hmem with hmem | hmem
            · exact h hmem.symm
            · exact ih hmem
        | cons ph pt => simpa [hp] using ih

/-- Line processing composes over concatenation of line lists. -/
theorem processLines_append (xs ys : List (List Char)) :
    ∀ st, processLines st (xs ++ ys)
      = ((processLines (processLines st xs).1 ys).1,
         (processLines st xs).2 ++ (processLines (processLines st xs).1 ys).2) := by
  induction xs with
  | nil => intro st; simp [processLines]
  | cons l rest ih =>
      intro st
      simp only [List.cons_append, processLines, List.append_eq]
      rw [ih]
      simp [List.append_assoc]

/-- One chunk step in terms of completed and pending parts. -/
theorem processChunk_eq (st : TState) (chunk : String) :
    processChunk st chunk
      = ({ buffer := pendingLine (st.buffer ++ chunk.data)
           core := (processLines st.core (completedLines (st.buffer ++ chunk.data))).1 },
         (processLines st.core (completedLines (st.buffer ++ chunk.data))).2) := by
  unfold processChunk completedLines pendingLine
  rw [splitCh_eq_splitNl2, List.dropLast_concat, List.getLastD_concat]

/-- joinData distributes over cons. -/
theorem joinData_cons (c : String) (rest : List String) :
    joinData (c :: rest) = c.data ++ joinData rest := by
  simp [joinData]

/-- Chunk-by-chunk processing equals processing the completed lines of
the concatenated stream text, with the final partial line pending. -/
theorem runChunks_eq (chunks : List String) :
    ∀ st : TState, '\n' ∉ st.buffer →
      runChunks st chunks
        = ({ buffer := pendingLine (st.buffer ++ joinData chunks)
             core := (processLines st.core (completedLines (st.buffer ++ joinData chunks))).1 },
           (processLines st.core (completedLines (st.buffer ++ joinData chunks))).2) := by
  induction chunks with
  | nil =>
      intro st hb
      have h2 : splitNl2 st.buffer = ([], st.buffer) := splitNl2_no_nl st.buffer hb
      show (st, []) = _
      rw [show joinData [] = [] from rfl, List.append_nil]
      simp [completedLines, pendingLine, h2, processLines]
  | cons c rest ih =>
      intro st hb
      have hb1 : '\n' ∉ pendingLine (st.buffer ++ c.data) := pendingLine_no_nl _
      have hrec := ih { buffer := pendingLine (st.buffer ++ c.data)
                        core := (processLines st.core (completedLines (st.buffer ++ c.data))).1 }
        hb1
      show (let p1 := processChunk st c
            let p2 := runChunks p1.1 rest
            (p2.1, p1.2 ++ p2.2)) = _
      rw [processChunk_eq]
      dsimp only at hrec ⊢
      rw [hrec]
      have hsplit := splitNl2_append (st.buffer ++ c.data) (joinData rest)
      have hcomp : completedLines ((st.buffer ++ c.data) ++ joinData rest)
          = completedLines (st.buffer ++ c.data)
            ++ completedLines (pendingLine (st.buffer ++ c.data) ++ joinData rest) := by
        unfold completedLines pendingLine
        rw [hsplit]
      have hpend : pendingLine ((st.buffer ++ c.data) ++ joinData rest)
          = pendingLine (pendingLine (st.buffer ++ c.data) ++ joinData rest) := by
        unfold pendingLine
        rw [hsplit]
      rw [joinData_cons, ← List.append_assoc, hcomp, hpend, processLines_append]

/-- A line is handled by processing its frame, if it contributes one. -/
theorem processLine_eq_lineFrame (st : TCore) (l : List Char) :
    processLine st l
      = (match lineFrame l with
         | none => (st, [])
         | some f => processFrame st f) := by
  unfold processLine lineFrame
  by_cases h1 : "data: ".data.isPrefixOf l = true
  · simp only [h1, not_true, if_true, if_false]
    by_cases h2 : jsTrim (l.drop 6) = "[DONE]".data
    · simp [h2]
    · cases h3 : parseJson (jsTrim (l.drop 6)) <;> simp [h2, h3]
  · simp [h1]

/-- Processing a line list is processing its contributed frames. -/
theorem processLines_eq_frames (ls : List (List Char)) :
    ∀ st, processLines st ls = processFrames st (ls.filterMap lineFrame) := by
  induction ls with
  | nil => intro st; rfl
  | cons l rest ih =>
      intro st
      simp only [processLines, List.filterMap_cons, processLine_eq_lineFrame]
      cases h : lineFrame l with
      | none => simp [ih]
      | some f => simp [processFrames, ih]

/-- The transcoder output is the frame-level processing of the parsed
frames of the stream. -/
theorem transform_eq_processFrames (chunks : List String) :
    transformOpenRouterToAnthropic chunks
      = (processFrames initTState.core (framesOf chunks)).2 := by
  unfold transformOpenRouterToAnthropic
  rw [runChunks_eq chunks initTState (by simp [initTState])]
  show (processLines initTState.core (completedLines (joinData chunks))).2 = _
  rw [processLines_eq_frames]
  rfl

/-- Frame processing composes over concatenation of frame lists. -/
theorem processFrames_append (xs ys : List Json) :
    ∀ st, processFrames st (xs ++ ys)
      = ((processFrames (processFrames st xs).1 ys).1,
         (processFrames st xs).2 ++ (processFrames (processFrames st xs).1 ys).2) := by
  induction xs with
  | nil => intro st; simp [processFrames]
  | cons f rest ih =>
      intro st
      simp only [List.cons_append, processFrames, List.append_eq]
      rw [ih]
      simp [List.append_assoc]

/-- After processing any frame the one-shot flag is set. -/
theorem processFrame_sentStart (st : TCore) (f : Json) :
    (processFrame st f).1.sentStart = true := by
  by_cases h : st.sentStart <;>
    by_cases hu : jsTruthy (jsGet f "usage") <;>
      simp [processFrame, startEvents, usageUpdate, h, hu]

/-- Appending delta-only event lists stays delta-only. -/
theorem AllDeltas_append (a b : List SseEvent) (ha : AllDeltas a) (hb : AllDeltas b) :
    AllDeltas (a ++ b) := by
  intro e he
  rcases List.mem_append.mp he with he | he
  · exact ha e he
  · exact hb e he

/-- A started, finish-free frame only contributes delta events. -/
theorem processFrame_mid (st : TCore) (f : Json) (h : st.sentStart = true)
    (hf : jsTruthy (finishReason f) = false) :
    AllDeltas (processFrame st f).2 := by
  by_cases hd : jsTruthy (deltaContent f)
  · intro e he
    simp [processFrame, startEvents, h, hf, hd] at he
    exact ⟨_, he⟩
  · intro e he
    simp [processFrame, startEvents, h, hf, hd] at he

/-- A run of started, finish-free frames only contributes delta events
and keeps the flag set. -/
theorem processFrames_mid (fs : List Json) :
    ∀ st, st.sentStart = true → (∀ f ∈ fs, jsTruthy (finishReason f) = false) →
      (processFrames st fs).1.sentStart = true ∧ AllDeltas (processFrames st fs).2 := by
  induction fs with
  | nil => intro st h _; exact ⟨h, by intro e he; simp [processFrames] at he⟩
  | cons f rest ih =>
      intro st h hall
      have h1 : (processFrame st f).1.sentStart = true := processFrame_sentStart st f
      have hm := processFrame_mid st f h (hall f (List.mem_cons_self f rest))
      have := ih (processFrame st f).1 h1 (fun g hg => hall g (List.mem_cons_of_mem f hg))
      exact ⟨this.1, AllDeltas_append _ _ hm this.2⟩

/-- First frame without finish: the two start events then deltas. -/
theorem processFrame_first (st : TCore) (f : Json) (h : st.sentStart = false)
    (hf : jsTruthy (finishReason f) = false) :
    ∃ m tail, (processFrame st f).2
        = SseEvent.message_start m :: SseEvent.content_block_start :: tail
      ∧ AllDeltas tail := by
  by_cases hd : jsTruthy (deltaContent f)
  · refine ⟨jsOr (jsGet f "model") (.str "unknown"),
      [SseEvent.content_block_delta (deltaContent f)], ?_, ?_⟩
    · simp [processFrame, startEvents, h, hf, hd]
    · intro e he
      simp at he
      exact ⟨_, he⟩
  · refine ⟨jsOr (jsGet f "model") (.str "unknown"), [], ?_, ?_⟩
    · simp [processFrame, startEvents, h, hf, hd]
    · intro e he
      simp at he

/-- Started frame with finish: deltas then the three closing events. -/
theorem processFrame_last (st : TCore) (f : Json) (h : st.sentStart = true)
    (hf : jsTruthy (finishReason f) = true) :
    ∃ ds r u, (processFrame st f).2
        = ds ++ [SseEvent.content_block_stop, SseEvent.message_delta r u, SseEvent.message_stop]
      ∧ AllDeltas ds := by
  by_cases hd : jsTruthy (deltaContent f)
  · refine ⟨[SseEvent.content_block_delta (deltaContent f)],
      mapFinishReason (some (jsToString (finishReason f))),
      (usageUpdate st f).outputTokens, ?_, ?_⟩
    · simp [processFrame, startEvents, h, hf, hd]
    · intro e he
      simp at he
      exact ⟨_, he⟩
  · refine ⟨[], mapFinishReason (some (jsToString (finishReason f))),
      (usageUpdate st f).outputTokens, ?_, ?_⟩
    · simp [processFrame, startEvents, h, hf, hd]
    · intro e he
      simp at he

/-- Unstarted frame with finish: the whole shape from one frame. -/
theorem processFrame_single (st : TCore) (f : Json) (h : st.sentStart = false)
    (hf : jsTruthy (finishReason f) = true) :
    ∃ m ds r u, (processFrame st f).2
        = SseEvent.message_start m :: SseEvent.content_block_start ::
            (ds ++ [SseEvent.content_block_stop, SseEvent.message_delta r u,
              SseEvent.message_stop])
      ∧ AllDeltas ds := by
  by_cases hd : jsTruthy (deltaContent f)
  · refine ⟨jsOr (jsGet f "model") (.str "unknown"),
      [SseEvent.content_block_delta (deltaContent f)],
      mapFinishReason (some (jsToString (finishReason f))),
      (usageUpdate { st with sentStart := true } f).outputTokens, ?_, ?_⟩
    · simp [processFrame, startEvents, h, hf, hd]
    · intro e he
      simp at he
      exact ⟨_, he⟩
  · refine ⟨jsOr (jsGet f "model") (.str "unknown"), [],
      mapFinishReason (some (jsToString (finishReason f))),
      (usageUpdate { st with sentStart := true } f).outputTokens, ?_, ?_⟩
    · simp [processFrame, startEvents, h, hf, hd]
    · intro e he
      simp at he

/-- C1 counterexample: the empty provider stream produces no events at
all — zero message_start events rather than exactly one — refuting the
claim for every provider byte stream.  This matches the specification
sentence that no synthetic events are fabricated when the source closes
before any frame was parsed. -/
theorem c1_counterexample :
    transformOpenRouterToAnthropic [] = []
    ∧ ¬ StreamShape (transformOpenRouterToAnthropic []) := by
  refine ⟨rfl, ?_⟩
  rintro ⟨m, ds, r, u, h, _⟩
  rw [show transformOpenRouterToAnthropic [] = [] from rfl] at h
  exact List.cons_ne_nil _ _ h.symm

/-- C1 (amended): for every provider byte stream whose completed data
lines parse to a nonempty frame sequence in which exactly the last
frame carries a truthy finish reason, the caller-facing event stream
is exactly one message_start, then exactly one content_block_start,
then zero or more content_block_delta events, then one
content_block_stop, one message_delta and one message_stop, in that
order. -/
theorem c1_stream_shape (chunks : List String) (body : List Json) (last : Json)
    (hfr : framesOf chunks = body ++ [last])
    (hbody : ∀ f ∈ body, jsTruthy (finishReason f) = false)
    (hlast : jsTruthy (finishReason last) = true) :
    StreamShape (transformOpenRouterToAnthropic chunks) := by
  rw [transform_eq_processFrames, hfr]
  have hinit : initTState.core.sentStart = false := rfl
  cases body with
  | nil =>
      obtain ⟨m, ds, r, u, hev, hds⟩ := processFrame_single initTState.core last hinit hlast
      refine ⟨m, ds, r, u, ?_, hds⟩
      simp [processFrames, hev]
  | cons f0 bodyRest =>
      obtain ⟨m, tail0, hev0, htail0⟩ :=
        processFrame_first initTState.core f0 hinit (hbody f0 (List.mem_cons_self f0 _))
      have hst1 : (processFrame initTState.core f0).1.sentStart = true :=
        processFrame_sentStart initTState.core f0
      obtain ⟨hst2, hmid⟩ := processFrames_mid bodyRest (processFrame initTState.core f0).1 hst1
        (fun g hg => hbody g (List.mem_cons_of_mem f0 hg))
      obtain ⟨dsl, r, u, hevl, hdsl⟩ :=
        processFrame_last (processFrames (processFrame initTState.core f0).1 bodyRest).1 last
          hst2 hlast
      have hsplit : (processFrames initTState.core ((f0 :: bodyRest) ++ [last])).2
          = (processFrame initTState.core f0).2
            ++ ((processFrames (processFrame initTState.core f0).1 bodyRest).2
              ++ (processFrame
                    (processFrames (processFrame initTState.core f0).1 bodyRest).1 last).2) := by
        rw [List.cons_append]
        show (processFrames initTState.core (f0 :: (bodyRest ++ [last]))).2 = _
        simp only [processFrames]
        rw [processFrames_append bodyRest [last]]
        simp [processFrames]
      refine ⟨m,
        tail0 ++ ((processFrames (processFrame initTState.core f0).1 bodyRest).2 ++ dsl),
        r, u, ?_, ?_⟩
      · rw [hsplit, hev0, hevl]
        simp [List.append_assoc]
      · exact AllDeltas_append _ _ htail0 (AllDeltas_append _ _ hmid hdsl)

set_option maxRecDepth 10000

/-- Witness for C1 at a concrete one-frame stream whose single frame
carries content and a stop finish reason. -/
theorem c1_witness :
    StreamShape (transformOpenRouterToAnthropic
      ["data: \x7b\"model\":\"gpt-4\",\"choices\":[\x7b\"delta\":\x7b\"content\":\"Hi\"\x7d,\"finish_reason\":\"stop\"\x7d]\x7d\n"]) :=
  c1_stream_shape
    ["data: \x7b\"model\":\"gpt-4\",\"choices\":[\x7b\"delta\":\x7b\"content\":\"Hi\"\x7d,\"finish_reason\":\"stop\"\x7d]\x7d\n"]
    []
    (Json.obj [("model", .str "gpt-4"),
      ("choices", .arr [.obj [("delta", .obj [("content", .str "Hi")]),
        ("finish_reason", .str "stop")]])])
    (by decide) (by simp) (by decide)

/-- Witness for C2 at a concrete TypeError exception. -/
theorem c2_witness :
    (forwardCatch { name := "TypeError", message := "fetch failed", code := none }).success = false
    ∧ (forwardCatch { name := "TypeError", message := "fetch failed", code := none }).errorCode
      = some 502
    ∧ (∃ m, (forwardCatch { name := "TypeError", message := "fetch failed", code := none }).error
          = some m ∧ "Network error".data <:+: m.data)
    ∧ replyOnForwardFailure (forwardCatch { name := "TypeError", message := "fetch failed", code := none })
      = some (502, "api_error",
          (forwardCatch { name := "TypeError", message := "fetch failed", code := none }).error) :=
  c2_network_errors { name := "TypeError", message := "fetch failed", code := none } (by decide)

end Augment
